import Mathlib

/-!
Shallow embedding of the TalentRank scoring/inference core:
`src/analysis/domain_classifier.py`, `src/analysis/nation_predictor.py`,
`src/ranking/score_calculator.py` and the talent-rank aggregation of
`src/services/developer_analyzer.py`.

Python floats are modelled as exact rationals (for the linear weight
arithmetic of the domain classifier and nation predictor, where every
claimed result is exact) and as real numbers (for the logarithmic
normalisation of the score calculator, where `math.log` is modelled by
`Real.log`). Python dicts are modelled as insertion-ordered association
lists; Python sets of domain labels are modelled as duplicate-free lists
in the fixed order of the keyword table (set iteration order is
unspecified in the source, and no claim depends on it).
-/

set_option linter.unusedVariables false

namespace TalentRank

/-- Contiguous-sublist test on character lists: `n` occurs as a prefix of some
suffix of the second list. -/
def charsInfix (n : List Char) : List Char → Bool
  | [] => n.isEmpty
  | h :: t => n.isPrefixOf (h :: t) || charsInfix n t

/-- Python `needle in haystack` substring test on strings. -/
def strContains (needle haystack : String) : Bool :=
  charsInfix needle.data haystack.data

/-- Python `s.lower()`, modelled character-wise (all strings the source
compares are ASCII, where this agrees with Python). -/
def strToLower (s : String) : String :=
  ⟨s.data.map Char.toLower⟩

/-- Python `s.strip()`: drop whitespace from both ends. -/
def strTrim (s : String) : String :=
  ⟨((s.data.dropWhile Char.isWhitespace).reverse.dropWhile Char.isWhitespace).reverse⟩

/-! ### DomainClassifier (`src/analysis/domain_classifier.py`) -/

/-- One repository record as consumed by `DomainClassifier.classify_domains`:
the `stars`, `language` and `topics` fields of the metrics dict. A missing
or `None` language is modelled by `""` (both are falsy in the source's
`if repo.get('language')`). -/
structure Repo where
  stars : Nat
  language : String
  topics : List String
deriving DecidableEq

/-- One contributions dict; `classify_domains` accepts these but never reads
them, so the field content is irrelevant. -/
def ContribDict := List (String × Int)

/-- `DomainClassifier._init_domain_keywords`: the fixed domain → keyword table,
in source order. -/
def domain_keywords : List (String × List String) :=
  [("Frontend", ["javascript", "typescript", "react", "vue", "angular", "web"]),
   ("Backend", ["python", "java", "golang", "nodejs", "django", "spring"]),
   ("Mobile", ["android", "ios", "flutter", "react-native", "mobile"]),
   ("DevOps", ["docker", "kubernetes", "aws", "cicd", "jenkins"]),
   ("AI/ML", ["machine-learning", "deep-learning", "tensorflow", "pytorch"]),
   ("Security", ["security", "cryptography", "encryption", "penetration"]),
   ("Database", ["mysql", "postgresql", "mongodb", "redis", "elasticsearch"])]

/-- `DomainClassifier._calculate_repo_weight`: `min(100, repo.get('stars', 0) / 100)`. -/
def calculateRepoWeight (repo : Repo) : ℚ :=
  min 100 ((repo.stars : ℚ) / 100)

/-- Whether a repository matches one domain's keyword list:
`_classify_by_language` adds the domain on an exact (lower-cased) membership
of the language in the list (guarded by `if repo.get('language')`), and
`_classify_by_topics` adds it when some keyword is a substring of some
lower-cased topic. -/
def repoMatchesDomain (repo : Repo) (keywords : List String) : Bool :=
  ((repo.language != "") && keywords.contains (strToLower repo.language))
  || repo.topics.any (fun t => keywords.any (fun k => strContains k (strToLower t)))

/-- `DomainClassifier._analyze_repo_domains`: the set of domains matched by a
repository, as a duplicate-free list in keyword-table order. -/
def analyzeRepoDomains (repo : Repo) : List String :=
  (domain_keywords.filter (fun p => repoMatchesDomain repo p.2)).map (fun p => p.1)

/-- `domain_scores[domain] += weight` on a `defaultdict(float)` modelled as an
insertion-ordered association list. -/
def assocAdd (m : List (String × ℚ)) (k : String) (w : ℚ) : List (String × ℚ) :=
  if m.any (fun p => p.1 == k) then
    m.map (fun p => if p.1 == k then (p.1, p.2 + w) else p)
  else m ++ [(k, w)]

/-- One iteration of the repository loop of `classify_domains`: add the
repository's weight to the score of every domain it matches and to the
running total. -/
def classifyStep (acc : List (String × ℚ) × ℚ) (repo : Repo) : List (String × ℚ) × ℚ :=
  let weight := calculateRepoWeight repo
  let domains := analyzeRepoDomains repo
  (domains.foldl (fun m d => assocAdd m d weight) acc.1, acc.2 + weight)

/-- `DomainClassifier.classify_domains`: accumulate each repository's weight
onto every domain it matches, then divide every score by the total weight
when that total is positive. The `contributions` argument is never read. -/
def classify_domains (repositories : List Repo) (contributions : List ContribDict) :
    List (String × ℚ) :=
  let acc := repositories.foldl classifyStep ([], 0)
  if 0 < acc.2 then acc.1.map (fun p => (p.1, p.2 / acc.2)) else acc.1

/-! ### NationPredictor (`src/analysis/nation_predictor.py`) -/

/-- `NationPredictor._load_location_mapping`: the fixed region → keyword table,
in source order. -/
def location_mapping : List (String × List String) :=
  [("China", ["china", "cn", "beijing", "shanghai", "guangzhou", "shenzhen"]),
   ("United States", ["usa", "us", "united states", "california", "new york"]),
   ("India", ["india", "bangalore", "mumbai", "delhi"]),
   ("United Kingdom", ["uk", "united kingdom", "london", "manchester"])]

/-- `NationPredictor._map_location_to_nation`: `None` for a falsy location,
otherwise the first region in table order one of whose keywords is a
substring of the lower-cased, stripped location. -/
def mapLocationToNation (location : String) : Option String :=
  if location = "" then none
  else
    let l := strTrim (strToLower location)
    match location_mapping.find? (fun p => p.2.any (fun k => strContains k l)) with
    | some p => some p.1
    | none => none

/-- The distinct elements of a list in order of first occurrence: the key
insertion order of a Python `Counter` built from the list. -/
def firstKeys : List String → List String
  | [] => []
  | x :: xs => x :: (firstKeys xs).filter (fun y => y != x)

/-- One step of scanning the `Counter` items for a maximal count: a later key
replaces the current best only on a strictly larger count, matching the
stability of `Counter.most_common` (ties keep the earlier-inserted key). -/
def tallyStep (l : List String) (best : String × Nat) (k : String) : String × Nat :=
  if l.count k > best.2 then (k, l.count k) else best

/-- `Counter(l).most_common(1)[0]`: the first-encountered element of maximal
multiplicity together with its count. The `("", 0)` branch is unreachable in
the source (guarded by the emptiness check in `_predict_from_network`). -/
def mostCommon (l : List String) : String × Nat :=
  match firstKeys l with
  | [] => ("", 0)
  | k :: ks => ks.foldl (tallyStep l) (k, l.count k)

/-- `NationPredictor._predict_from_network`: map each network location
(dropping falsy and unmapped ones), return `("Unknown", 0.0)` when nothing
maps, else the most frequent region with its vote share as confidence. -/
def predictFromNetwork (network_locations : List String) : String × ℚ :=
  let mapped_nations := network_locations.filterMap
    (fun loc => if loc = "" then none else mapLocationToNation loc)
  if mapped_nations = [] then ("Unknown", 0)
  else
    let mc := mostCommon mapped_nations
    (mc.1, (mc.2 : ℚ) / mapped_nations.length)

/-- `NationPredictor.predict_nation`: a non-empty declared location that maps
to a region wins with confidence 1.0, otherwise fall back to the network. -/
def predict_nation (developer_location : String) (network_locations : List String) :
    String × ℚ :=
  match (if developer_location ≠ "" then mapLocationToNation developer_location else none) with
  | some nation => (nation, 1)
  | none => predictFromNetwork network_locations

/-! ### TalentRankCalculator (`src/ranking/score_calculator.py`)

`math.log` on Python floats is modelled by `Real.log`; the raw metric
fields are Python `int`s, modelled by `ℤ`. -/

/-- `ProjectMetrics` dataclass. -/
structure ProjectMetrics where
  stars : ℤ
  forks : ℤ
  watchers : ℤ

/-- `DeveloperMetrics` dataclass. -/
structure DeveloperMetrics where
  commits : ℤ
  resolved_issues : ℤ
  pull_requests : ℤ
  code_reviews : ℤ

/-- `TalentRankCalculator._normalize_value`: `0` for a non-positive value,
otherwise `min(100, log(value + 1) / log(baseline + 1) * 100)`. -/
noncomputable def normalize_value (value baseline : ℤ) : ℝ :=
  if value ≤ 0 then 0
  else min 100 (Real.log ((value : ℝ) + 1) / Real.log ((baseline : ℝ) + 1) * 100)

/-- `TalentRankCalculator.calculate_project_importance`: weighted sum of the
normalized star/fork/watcher counts (weights 0.4/0.3/0.3, baselines
1000/500/200), clamped to 100. -/
noncomputable def calculate_project_importance (metrics : ProjectMetrics) : ℝ :=
  min (normalize_value metrics.stars 1000 * 0.4
    + normalize_value metrics.forks 500 * 0.3
    + normalize_value metrics.watchers 200 * 0.3) 100

/-- `TalentRankCalculator.calculate_developer_contribution`: weighted sum of
the normalized commit/issue/PR/review counts (weights 0.3/0.25/0.25/0.2,
baselines 100/50/30/40), clamped to 100. -/
noncomputable def calculate_developer_contribution (metrics : DeveloperMetrics) : ℝ :=
  min (normalize_value metrics.commits 100 * 0.3
    + normalize_value metrics.resolved_issues 50 * 0.25
    + normalize_value metrics.pull_requests 30 * 0.25
    + normalize_value metrics.code_reviews 40 * 0.2) 100

/-- `TalentRankCalculator.calculate_final_score`:
`(project_score * 0.4 + contribution_score * 0.6) * activity_factor`,
with no clamp. The source gives `activity_factor` the default value `1.0`. -/
def calculate_final_score (project_score contribution_score activity_factor : ℝ) : ℝ :=
  (project_score * 0.4 + contribution_score * 0.6) * activity_factor

/-! ### DeveloperAnalyzer (`src/services/developer_analyzer.py`)

`_calculate_talent_rank` fetches, for each repository name, its
`ProjectMetrics` and the developer's `DeveloperMetrics` in it; the loop body
is modelled over the list of fetched pairs. -/

/-- `DeveloperAnalyzer._calculate_activity_factor`: the source ignores its
`repositories` argument and returns the constant `1.0`. -/
def calculate_activity_factor (repositories : List (ProjectMetrics × DeveloperMetrics)) : ℝ :=
  1

/-- `DeveloperAnalyzer._calculate_talent_rank`: accumulate both scores and the
repository count over the fetched data; `0` for an empty portfolio, otherwise
`calculate_final_score` of the two averages and the activity factor. -/
noncomputable def calculate_talent_rank
    (repoData : List (ProjectMetrics × DeveloperMetrics)) : ℝ :=
  let t := repoData.foldl
    (fun (acc : ℝ × ℝ × ℕ) rd =>
      (acc.1 + calculate_project_importance rd.1,
       acc.2.1 + calculate_developer_contribution rd.2,
       acc.2.2 + 1))
    (0, 0, 0)
  if t.2.2 = 0 then 0
  else calculate_final_score (t.1 / t.2.2) (t.2.1 / t.2.2)
    (calculate_activity_factor repoData)


/-! ### Helper lemmas: normalisation -/

theorem normalize_value_le_100 (value baseline : ℤ) :
    normalize_value value baseline ≤ 100 := by
  unfold normalize_value
  split
  · norm_num
  · exact min_le_left _ _

theorem cast_baseline_succ_pos {baseline : ℤ} (hb : 1 ≤ baseline) :
    (0 : ℝ) < (baseline : ℝ) + 1 := by
  have : (1 : ℝ) ≤ (baseline : ℝ) := by exact_mod_cast hb
  linarith

theorem log_baseline_pos {baseline : ℤ} (hb : 1 ≤ baseline) :
    0 < Real.log ((baseline : ℝ) + 1) := by
  apply Real.log_pos
  have : (1 : ℝ) ≤ (baseline : ℝ) := by exact_mod_cast hb
  linarith

theorem one_le_cast_succ {value : ℤ} (hv : ¬ value ≤ 0) : (1 : ℝ) ≤ (value : ℝ) + 1 := by
  have : (0 : ℝ) ≤ (value : ℝ) := by exact_mod_cast le_of_lt (lt_of_not_le hv)
  linarith

theorem normalize_value_nonneg {baseline : ℤ} (hb : 1 ≤ baseline) (value : ℤ) :
    0 ≤ normalize_value value baseline := by
  unfold normalize_value
  split
  · exact le_refl _
  · rename_i hv
    apply le_min (by norm_num)
    apply mul_nonneg _ (by norm_num)
    exact div_nonneg (Real.log_nonneg (one_le_cast_succ hv)) (le_of_lt (log_baseline_pos hb))

theorem normalize_value_mono {baseline : ℤ} (hb : 1 ≤ baseline) {v1 v2 : ℤ}
    (h : v1 ≤ v2) : normalize_value v1 baseline ≤ normalize_value v2 baseline := by
  by_cases h1 : v1 ≤ 0
  · rw [show normalize_value v1 baseline = 0 from by unfold normalize_value; simp [h1]]
    exact normalize_value_nonneg hb v2
  · have h2 : ¬ v2 ≤ 0 := fun hc => h1 (le_trans h hc)
    unfold normalize_value
    simp only [h1, h2, if_false]
    apply min_le_min (le_refl _)
    apply mul_le_mul_of_nonneg_right _ (by norm_num)
    apply (div_le_div_iff_of_pos_right (log_baseline_pos hb)).mpr
    apply (Real.log_le_log_iff (by linarith [one_le_cast_succ h1])
      (by linarith [one_le_cast_succ h2])).mpr
    have : (v1 : ℝ) ≤ (v2 : ℝ) := by exact_mod_cast h
    linarith

theorem normalize_value_eq_100_iff {baseline : ℤ} (hb : 1 ≤ baseline) (value : ℤ) :
    normalize_value value baseline = 100 ↔ baseline ≤ value := by
  unfold normalize_value
  by_cases hv : value ≤ 0
  · simp only [hv, if_true]
    constructor
    · intro hc; norm_num at hc
    · intro hc; exfalso; omega
  · simp only [hv, if_false]
    rw [min_eq_left_iff]
    rw [le_mul_iff_one_le_left (by norm_num : (0 : ℝ) < 100)]
    rw [one_le_div (log_baseline_pos hb)]
    rw [Real.log_le_log_iff (cast_baseline_succ_pos hb)
      (by linarith [one_le_cast_succ hv])]
    constructor
    · intro hc
      have : (baseline : ℝ) ≤ (value : ℝ) := by linarith
      exact_mod_cast this
    · intro hc
      have : (baseline : ℝ) ≤ (value : ℝ) := by exact_mod_cast hc
      linarith

theorem normalize_value_zero (baseline : ℤ) : normalize_value 0 baseline = 0 := by
  unfold normalize_value
  norm_num

/-! ### Claim theorems: normalisation and final score -/

/-- C3: for `baseline > 0`, `normalize_value 0 baseline = 0`, the result never
exceeds 100 (in particular at `value = 10 ^ 9`, `baseline = 100`), and —
correcting the claim that no finite value reaches 100 — the result equals 100
exactly when `baseline ≤ value`, so the finite input `value = baseline`
already saturates the clamp. -/
theorem normalize_value_bounds_and_saturation (baseline : ℤ) (hb : 0 < baseline) :
    normalize_value 0 baseline = 0 ∧
    (∀ value : ℤ, normalize_value value baseline ≤ 100) ∧
    (∀ value : ℤ, normalize_value value baseline = 100 ↔ baseline ≤ value) ∧
    normalize_value (10 ^ 9) 100 ≤ 100 := by
  have hb1 : 1 ≤ baseline := hb
  exact ⟨normalize_value_zero baseline,
    fun value => normalize_value_le_100 value baseline,
    fun value => normalize_value_eq_100_iff hb1 value,
    normalize_value_le_100 (10 ^ 9) 100⟩

/-- Witness for C3 at `baseline = 100`: the zero, bound and saturation facts
at concrete inputs. -/
theorem normalize_value_bounds_and_saturation_witness :
    normalize_value 0 100 = 0 ∧
    normalize_value (10 ^ 9) 100 ≤ 100 ∧
    normalize_value 100 100 = 100 :=
  ⟨(normalize_value_bounds_and_saturation 100 (by decide)).1,
   (normalize_value_bounds_and_saturation 100 (by decide)).2.2.2,
   ((normalize_value_bounds_and_saturation 100 (by decide)).2.2.1 100).mpr (by decide)⟩

/-- Counterexample to C3 as stated: `baseline = 100` is positive, `value = 100`
is finite, and `normalize_value 100 100` equals exactly 100. -/
theorem normalize_value_eq_100_at_baseline :
    (0 : ℤ) < 100 ∧ normalize_value 100 100 = 100 :=
  ⟨by decide, (normalize_value_eq_100_iff (by decide) 100).mpr (by decide)⟩

/-- C5: for a fixed positive baseline, `normalize_value` is monotone in the
value, and lands in `[0, 100]` for every non-negative value. -/
theorem normalize_value_monotone_bounded (baseline : ℤ) (hb : 0 < baseline) :
    (∀ v1 v2 : ℤ, 0 ≤ v1 → v1 < v2 →
      normalize_value v1 baseline ≤ normalize_value v2 baseline) ∧
    (∀ value : ℤ, 0 ≤ value →
      0 ≤ normalize_value value baseline ∧ normalize_value value baseline ≤ 100) := by
  have hb1 : 1 ≤ baseline := hb
  exact ⟨fun v1 v2 _ h12 => normalize_value_mono hb1 (le_of_lt h12),
    fun value _ => ⟨normalize_value_nonneg hb1 value, normalize_value_le_100 value baseline⟩⟩

/-- Witness for C5 at `baseline = 2`, `v1 = 1`, `v2 = 3`. -/
theorem normalize_value_monotone_bounded_witness :
    normalize_value 1 2 ≤ normalize_value 3 2 ∧
    0 ≤ normalize_value 3 2 ∧ normalize_value 3 2 ≤ 100 :=
  ⟨(normalize_value_monotone_bounded 2 (by decide)).1 1 3 (by decide) (by decide),
   (normalize_value_monotone_bounded 2 (by decide)).2 3 (by decide)⟩

/-- C6: `calculate_final_score` is exactly the weighted combination multiplied
by the activity factor, with no clamp afterwards: at `(50, 50, 1.0)` it is
exactly 50, and with an activity factor above 1 it can exceed 100. -/
theorem calculate_final_score_formula :
    (∀ p c a : ℝ, calculate_final_score p c a = (p * 0.4 + c * 0.6) * a) ∧
    calculate_final_score 50 50 1 = 50 ∧
    100 < calculate_final_score 100 100 1.5 :=
  ⟨fun _ _ _ => rfl, by norm_num [calculate_final_score],
   by norm_num [calculate_final_score]⟩

/-! ### Helper lemmas: domain classification -/

theorem classify_domains_eq (repositories : List Repo) (contributions : List ContribDict) :
    classify_domains repositories contributions =
      if 0 < (repositories.foldl classifyStep ([], 0)).2 then
        (repositories.foldl classifyStep ([], 0)).1.map
          (fun p => (p.1, p.2 / (repositories.foldl classifyStep ([], 0)).2))
      else (repositories.foldl classifyStep ([], 0)).1 := rfl

theorem calculateRepoWeight_zero {repo : Repo} (h : repo.stars = 0) :
    calculateRepoWeight repo = 0 := by
  norm_num [calculateRepoWeight, h]

theorem calculateRepoWeight_pos {repo : Repo} (h : 1 ≤ repo.stars) :
    0 < calculateRepoWeight repo := by
  unfold calculateRepoWeight
  apply lt_min (by norm_num)
  have : (1 : ℚ) ≤ (repo.stars : ℚ) := by exact_mod_cast h
  positivity

theorem assocAdd_values_zero {m : List (String × ℚ)} (k : String)
    (hm : ∀ p ∈ m, p.2 = 0) : ∀ p ∈ assocAdd m k 0, p.2 = 0 := by
  unfold assocAdd
  split
  · intro p hp
    obtain ⟨q, hq, rfl⟩ := List.mem_map.mp hp
    split
    · simpa using hm q hq
    · exact hm q hq
  · intro p hp
    rcases List.mem_append.mp hp with h1 | h1
    · exact hm p h1
    · simp only [List.mem_singleton] at h1
      rw [h1]

theorem domfold_values_zero (domains : List String) (m : List (String × ℚ))
    (hm : ∀ p ∈ m, p.2 = 0) :
    ∀ p ∈ domains.foldl (fun m d => assocAdd m d 0) m, p.2 = 0 := by
  induction domains generalizing m with
  | nil => simpa using hm
  | cons d ds ih =>
    simp only [List.foldl_cons]
    exact ih _ (assocAdd_values_zero d hm)

theorem fold_classifyStep_zero (repositories : List Repo)
    (h : ∀ r ∈ repositories, r.stars = 0) :
    ∀ acc : List (String × ℚ) × ℚ, (∀ p ∈ acc.1, p.2 = 0) →
      (∀ p ∈ (repositories.foldl classifyStep acc).1, p.2 = 0) ∧
      (repositories.foldl classifyStep acc).2 = acc.2 := by
  induction repositories with
  | nil => intro acc hacc; exact ⟨hacc, rfl⟩
  | cons r rs ih =>
    intro acc hacc
    have hw : calculateRepoWeight r = 0 := calculateRepoWeight_zero (h r (by simp))
    have hstep : classifyStep acc r =
        ((analyzeRepoDomains r).foldl (fun m d => assocAdd m d 0) acc.1, acc.2) := by
      unfold classifyStep
      rw [hw]
      simp
    simp only [List.foldl_cons, hstep]
    exact ih (fun x hx => h x (by simp [hx])) _
      (domfold_values_zero (analyzeRepoDomains r) acc.1 hacc)

/-! ### Claim theorems: domain classification -/

/-- C1: when every repository weight `min(100, stars/100)` is zero
(equivalently, every repository has 0 stars), `classify_domains` performs no
division and is total; correcting the claim, the returned mapping is empty
only when the repository list is empty — a zero-weight repository matching a
domain contributes an entry whose value is `0.0`, and every value in the
returned mapping is 0. -/
theorem classify_domains_zero_total_weight (repositories : List Repo)
    (contributions : List ContribDict) (h : ∀ r ∈ repositories, r.stars = 0) :
    (∀ r ∈ repositories, calculateRepoWeight r = 0) ∧
    (∀ p ∈ classify_domains repositories contributions, p.2 = 0) ∧
    (repositories = [] → classify_domains repositories contributions = []) := by
  have hz := fold_classifyStep_zero repositories h ([], 0) (by simp)
  refine ⟨fun r hr => calculateRepoWeight_zero (h r hr), ?_, ?_⟩
  · rw [classify_domains_eq, hz.2]
    simp only [lt_irrefl, if_false]
    exact hz.1
  · intro hrep
    subst hrep
    rfl

/-- Witness for C1: a single zero-star repository whose language matches a
domain; every value of the returned mapping is zero. -/
theorem classify_domains_zero_total_weight_witness :
    (∀ r ∈ [(⟨0, "javascript", []⟩ : Repo)], r.stars = 0) ∧
    (∀ p ∈ classify_domains [⟨0, "javascript", []⟩] [], p.2 = 0) :=
  ⟨by decide,
   (classify_domains_zero_total_weight [⟨0, "javascript", []⟩] [] (by decide)).2.1⟩

/-- Counterexample to C1 as stated: one zero-star repository with language
"javascript" has weight 0, yet `classify_domains` returns a non-empty
mapping (namely `{"Frontend": 0.0}`). -/
theorem classify_domains_zero_weight_nonempty_output :
    calculateRepoWeight ⟨0, "javascript", []⟩ = 0 ∧
    classify_domains [⟨0, "javascript", []⟩] [] = [("Frontend", 0)] ∧
    classify_domains [⟨0, "javascript", []⟩] [] ≠ [] := by
  have he : classify_domains [⟨0, "javascript", []⟩] [] = [("Frontend", 0)] := by
    have h1 : analyzeRepoDomains ⟨0, "javascript", []⟩ = ["Frontend"] := by decide
    norm_num [classify_domains, classifyStep, h1, calculateRepoWeight, assocAdd]
  refine ⟨by norm_num [calculateRepoWeight], he, ?_⟩
  rw [he]
  simp

/-- C4 (corrected to require at least one star): a single repository with
language "javascript" and no topics classifies as exactly `{"Frontend": 1.0}`
for every positive star count — the weight cancels in the division. For zero
stars the weight is 0 and the entry is `{"Frontend": 0.0}` instead. -/
theorem classify_domains_single_javascript (stars : ℕ)
    (contributions : List ContribDict) (h : 1 ≤ stars) :
    classify_domains [⟨stars, "javascript", []⟩] contributions = [("Frontend", 1)] := by
  have hd : analyzeRepoDomains ⟨stars, "javascript", []⟩ = ["Frontend"] := rfl
  have hw : 0 < calculateRepoWeight ⟨stars, "javascript", []⟩ :=
    calculateRepoWeight_pos h
  rw [classify_domains_eq]
  simp only [List.foldl_cons, List.foldl_nil]
  have hstep : classifyStep ([], 0) ⟨stars, "javascript", []⟩ =
      ([("Frontend", calculateRepoWeight ⟨stars, "javascript", []⟩)],
        calculateRepoWeight ⟨stars, "javascript", []⟩) := by
    unfold classifyStep
    rw [hd]
    simp [assocAdd]
  rw [hstep]
  simp only [hw, if_true]
  simp [div_self (ne_of_gt hw)]

/-- Witness for C4 at 200 stars. -/
theorem classify_domains_single_javascript_witness :
    classify_domains [⟨200, "javascript", []⟩] [] = [("Frontend", 1)] :=
  classify_domains_single_javascript 200 [] (by decide)

/-- Counterexample to C4 as stated ("regardless of the repository's star
count"): at 0 stars the result is `{"Frontend": 0.0}`, not `{"Frontend": 1.0}`. -/
theorem classify_domains_single_javascript_zero_stars :
    classify_domains [⟨0, "javascript", []⟩] ([[("commits", 5)]] : List ContribDict) =
      [("Frontend", 0)] ∧
    classify_domains [⟨0, "javascript", []⟩] ([[("commits", 5)]] : List ContribDict) ≠
      [("Frontend", 1)] := by
  have he : classify_domains [⟨0, "javascript", []⟩]
      ([[("commits", 5)]] : List ContribDict) = [("Frontend", 0)] := by
    have h1 : analyzeRepoDomains ⟨0, "javascript", []⟩ = ["Frontend"] := by decide
    norm_num [classify_domains, classifyStep, h1, calculateRepoWeight, assocAdd]
  refine ⟨he, ?_⟩
  rw [he]
  simp

/-- C9: `classify_domains` never reads its `contributions` argument — the
result depends only on the repositories. -/
theorem classify_domains_ignores_contributions (repositories : List Repo)
    (c1 c2 : List ContribDict) :
    classify_domains repositories c1 = classify_domains repositories c2 := rfl

/-! ### Helper lemmas: nation prediction -/

theorem mapLocationToNation_empty : mapLocationToNation "" = none := rfl

theorem firstKeys_subset {x : String} : ∀ {l : List String}, x ∈ firstKeys l → x ∈ l := by
  intro l
  induction l with
  | nil => intro h; simp [firstKeys] at h
  | cons y ys ih =>
    intro h
    rcases List.mem_cons.mp h with h1 | h1
    · simp [h1]
    · exact List.mem_cons_of_mem y (ih (List.mem_filter.mp h1).1)

theorem mem_firstKeys {x : String} : ∀ {l : List String}, x ∈ l → x ∈ firstKeys l := by
  intro l
  induction l with
  | nil => intro h; simp at h
  | cons y ys ih =>
    intro h
    rcases List.mem_cons.mp h with h1 | h1
    · simp [firstKeys, h1]
    · by_cases hxy : x = y
      · simp [firstKeys, hxy]
      · exact List.mem_cons_of_mem y
          (List.mem_filter.mpr ⟨ih h1, by simpa using hxy⟩)

theorem tally_foldl_spec (l : List String) (ks : List String) :
    ∀ b : String × ℕ, b.2 = l.count b.1 → b.1 ∈ l → (∀ k ∈ ks, k ∈ l) →
      (ks.foldl (tallyStep l) b).2 = l.count (ks.foldl (tallyStep l) b).1 ∧
      (ks.foldl (tallyStep l) b).1 ∈ l ∧
      b.2 ≤ (ks.foldl (tallyStep l) b).2 ∧
      ∀ k ∈ ks, l.count k ≤ (ks.foldl (tallyStep l) b).2 := by
  induction ks with
  | nil =>
    intro b h1 h2 h3
    exact ⟨h1, h2, le_refl _, by simp⟩
  | cons k ks ih =>
    intro b h1 h2 h3
    simp only [List.foldl_cons]
    by_cases hc : l.count k > b.2
    · have hb2 : tallyStep l b k = (k, l.count k) := by
        unfold tallyStep
        simp [hc]
      rw [hb2]
      have hr := ih (k, l.count k) rfl (h3 k (by simp))
        (fun k2 hk2 => h3 k2 (by simp [hk2]))
      refine ⟨hr.1, hr.2.1, le_trans (le_of_lt hc) hr.2.2.1, ?_⟩
      intro k2 hk2
      rcases List.mem_cons.mp hk2 with h4 | h4
      · rw [h4]
        exact hr.2.2.1
      · exact hr.2.2.2 k2 h4
    · have hb2 : tallyStep l b k = b := by
        unfold tallyStep
        simp [hc]
      rw [hb2]
      have hr := ih b h1 h2 (fun k2 hk2 => h3 k2 (by simp [hk2]))
      refine ⟨hr.1, hr.2.1, hr.2.2.1, ?_⟩
      intro k2 hk2
      rcases List.mem_cons.mp hk2 with h4 | h4
      · rw [h4]
        exact le_trans (le_of_not_lt hc) hr.2.2.1
      · exact hr.2.2.2 k2 h4

theorem mostCommon_spec (l : List String) (hl : l ≠ []) :
    (mostCommon l).2 = l.count (mostCommon l).1 ∧
    (mostCommon l).1 ∈ l ∧
    ∀ x ∈ l, l.count x ≤ (mostCommon l).2 := by
  obtain ⟨y, ys, rfl⟩ := List.exists_cons_of_ne_nil hl
  have hfk : firstKeys (y :: ys) = y :: (firstKeys ys).filter (fun z => z != y) := rfl
  have hmc : mostCommon (y :: ys) =
      ((firstKeys ys).filter (fun z => z != y)).foldl (tallyStep (y :: ys))
        (y, (y :: ys).count y) := by
    unfold mostCommon
    rw [hfk]
  have hmem : ∀ k ∈ (firstKeys ys).filter (fun z => z != y), k ∈ y :: ys := by
    intro k hk
    exact firstKeys_subset (hfk ▸ List.mem_cons_of_mem y hk)
  have hr := tally_foldl_spec (y :: ys) ((firstKeys ys).filter (fun z => z != y))
    (y, (y :: ys).count y) rfl (by simp) hmem
  rw [hmc]
  refine ⟨hr.1, hr.2.1, ?_⟩
  intro x hx
  have hxk : x ∈ firstKeys (y :: ys) := mem_firstKeys hx
  rw [hfk] at hxk
  rcases List.mem_cons.mp hxk with h1 | h1
  · rw [h1]
    exact hr.2.2.1
  · exact hr.2.2.2 x h1

theorem filterMap_guard_eq (network_locations : List String) :
    network_locations.filterMap (fun loc => if loc = "" then none else mapLocationToNation loc) =
      network_locations.filterMap mapLocationToNation := by
  have hfun : (fun loc => if loc = "" then none else mapLocationToNation loc) =
      mapLocationToNation := by
    funext loc
    by_cases h : loc = ""
    · rw [h]
      simp [mapLocationToNation_empty]
    · simp [h]
  rw [hfun]

theorem predict_nation_eq_network {developer_location : String}
    (network_locations : List String)
    (h : mapLocationToNation developer_location = none) :
    predict_nation developer_location network_locations =
      predictFromNetwork network_locations := by
  unfold predict_nation
  by_cases hl : developer_location = ""
  · simp [hl]
  · simp [hl, h]

theorem predict_nation_of_mapped {developer_location nation : String}
    (network_locations : List String)
    (h : mapLocationToNation developer_location = some nation) :
    predict_nation developer_location network_locations = (nation, 1) := by
  have hl : developer_location ≠ "" := by
    intro hc
    rw [hc, mapLocationToNation_empty] at h
    exact Option.noConfusion h
  unfold predict_nation
  simp [hl, h]

theorem predictFromNetwork_spec (network_locations : List String) :
    (network_locations.filterMap mapLocationToNation = [] →
      predictFromNetwork network_locations = ("Unknown", 0)) ∧
    (network_locations.filterMap mapLocationToNation ≠ [] →
      (predictFromNetwork network_locations).1 ∈
          network_locations.filterMap mapLocationToNation ∧
        (∀ x ∈ network_locations.filterMap mapLocationToNation,
          (network_locations.filterMap mapLocationToNation).count x ≤
            (network_locations.filterMap mapLocationToNation).count
              (predictFromNetwork network_locations).1) ∧
        (predictFromNetwork network_locations).2 =
          ((network_locations.filterMap mapLocationToNation).count
              (predictFromNetwork network_locations).1 : ℚ) /
            (network_locations.filterMap mapLocationToNation).length) := by
  unfold predictFromNetwork
  rw [filterMap_guard_eq]
  by_cases hm : network_locations.filterMap mapLocationToNation = []
  · simp [hm]
  · have hs := mostCommon_spec (network_locations.filterMap mapLocationToNation) hm
    simp only [hm, if_false]
    refine ⟨fun hc => False.elim hc, fun _ => ⟨hs.2.1, ?_, ?_⟩⟩
    · intro x hx
      calc (network_locations.filterMap mapLocationToNation).count x
          ≤ (mostCommon (network_locations.filterMap mapLocationToNation)).2 :=
            hs.2.2 x hx
        _ = _ := hs.1
    · rw [hs.1]

theorem predictFromNetwork_conf_bounds (network_locations : List String) :
    0 ≤ (predictFromNetwork network_locations).2 ∧
      (predictFromNetwork network_locations).2 ≤ 1 := by
  unfold predictFromNetwork
  rw [filterMap_guard_eq]
  by_cases hm : network_locations.filterMap mapLocationToNation = []
  · simp [hm]
  · have hs := mostCommon_spec (network_locations.filterMap mapLocationToNation) hm
    have hlen : 0 < (network_locations.filterMap mapLocationToNation).length :=
      List.length_pos.mpr hm
    simp only [hm, if_false]
    constructor
    · positivity
    · rw [div_le_one (by exact_mod_cast hlen)]
      have hcount : (mostCommon (network_locations.filterMap mapLocationToNation)).2 ≤
          (network_locations.filterMap mapLocationToNation).length := by
        rw [hs.1]
        exact List.count_le_length _ _
      exact_mod_cast hcount

/-! ### Claim theorems: nation prediction and orchestration -/

/-- C2 (corrected): the confidence returned by `predict_nation` always lies in
`[0, 1]`, and it is 1.0 whenever the declared location maps to a canonical
region; but — against the claim's "only when" — a network vote can also
return confidence exactly 1.0, namely when every successfully-mapped network
location agrees on one region. -/
theorem predict_nation_confidence_bounds (developer_location : String)
    (network_locations : List String) :
    0 ≤ (predict_nation developer_location network_locations).2 ∧
    (predict_nation developer_location network_locations).2 ≤ 1 ∧
    ∀ nation, mapLocationToNation developer_location = some nation →
      predict_nation developer_location network_locations = (nation, 1) := by
  cases hm : mapLocationToNation developer_location with
  | some n =>
    rw [predict_nation_of_mapped network_locations hm]
    refine ⟨by norm_num, by norm_num, ?_⟩
    intro nation h
    rw [Option.some_inj.mp h]
  | none =>
    rw [predict_nation_eq_network network_locations hm]
    have hb := predictFromNetwork_conf_bounds network_locations
    refine ⟨hb.1, hb.2, ?_⟩
    intro nation h
    exact Option.noConfusion h

/-- Witness for C2: a declared location that maps to a region yields that
region with confidence exactly 1. -/
theorem predict_nation_confidence_bounds_witness :
    predict_nation "Beijing, China" ["nowhere"] = ("China", 1) :=
  (predict_nation_confidence_bounds "Beijing, China" ["nowhere"]).2.2 "China" (by decide)

/-- Counterexample to C2 as stated: the empty declared location maps to no
region, yet the network vote `["london"]` is unanimous and the returned
confidence is exactly 1.0. -/
theorem predict_nation_network_confidence_one :
    mapLocationToNation "" = none ∧
    predict_nation "" ["london"] = ("United Kingdom", 1) := by
  refine ⟨rfl, ?_⟩
  have h1 : (["london"] : List String).filterMap
      (fun loc => if loc = "" then none else mapLocationToNation loc) =
      ["United Kingdom"] := by decide
  have h2 : mostCommon ["United Kingdom"] = ("United Kingdom", 1) := by decide
  rw [@predict_nation_eq_network "" ["london"] mapLocationToNation_empty]
  unfold predictFromNetwork
  rw [h1]
  norm_num [h2]

/-- C7: when the declared location is empty or unmapped, `predict_nation`
returns `("Unknown", 0.0)` if no network location maps, and otherwise a
most-frequent mapped region with confidence its count divided by the number
of successfully-mapped locations (unmapped ones drop out of the denominator). -/
theorem predict_nation_network_vote (developer_location : String)
    (network_locations : List String)
    (h : mapLocationToNation developer_location = none) :
    (network_locations.filterMap mapLocationToNation = [] →
      predict_nation developer_location network_locations = ("Unknown", 0)) ∧
    (network_locations.filterMap mapLocationToNation ≠ [] →
      (predict_nation developer_location network_locations).1 ∈
          network_locations.filterMap mapLocationToNation ∧
        (∀ x ∈ network_locations.filterMap mapLocationToNation,
          (network_locations.filterMap mapLocationToNation).count x ≤
            (network_locations.filterMap mapLocationToNation).count
              (predict_nation developer_location network_locations).1) ∧
        (predict_nation developer_location network_locations).2 =
          ((network_locations.filterMap mapLocationToNation).count
              (predict_nation developer_location network_locations).1 : ℚ) /
            (network_locations.filterMap mapLocationToNation).length) := by
  rw [predict_nation_eq_network network_locations h]
  exact predictFromNetwork_spec network_locations

/-- Witness for C7: declared location "mars" maps nowhere; of the network
locations, only "london" maps, so the vote share is count 1 over denominator
1 — "paris" is excluded from the denominator. -/
theorem predict_nation_network_vote_witness :
    mapLocationToNation "mars" = none ∧
    (predict_nation "mars" ["london", "paris"]).2 =
      (((["london", "paris"] : List String).filterMap mapLocationToNation).count
          (predict_nation "mars" ["london", "paris"]).1 : ℚ) /
        ((["london", "paris"] : List String).filterMap mapLocationToNation).length :=
  ⟨by decide,
   ((predict_nation_network_vote "mars" ["london", "paris"] (by decide)).2
     (by decide)).2.2⟩

/-- C10: when the declared location maps to a region, the result of
`predict_nation` is independent of the network locations. -/
theorem predict_nation_ignores_network (developer_location nation : String)
    (h : mapLocationToNation developer_location = some nation) :
    ∀ net1 net2 : List String,
      predict_nation developer_location net1 = predict_nation developer_location net2 := by
  intro net1 net2
  rw [predict_nation_of_mapped net1 h, predict_nation_of_mapped net2 h]

/-- Witness for C10: "london" maps to the United Kingdom, and the prediction
is the same for two different network-location lists. -/
theorem predict_nation_ignores_network_witness :
    predict_nation "london" ["beijing"] = predict_nation "london" [] :=
  predict_nation_ignores_network "london" "United Kingdom" (by decide) ["beijing"] []

/-- C8: a developer with zero repositories gets `talent_rank = 0` exactly
(no division by the repository count is attempted) and an empty domain map. -/
theorem talent_rank_zero_repositories :
    calculate_talent_rank [] = 0 ∧
    ∀ contributions : List ContribDict, classify_domains [] contributions = [] :=
  ⟨rfl, fun _ => rfl⟩

end TalentRank
